import Mathlib

/-!
Verification development for the UncTube upload and extraction orchestration
engine.  The definitions below are a shallow embedding of the queue manager,
the upload item pipeline (saga) and the polling watcher implemented in
`frontend/app/preserve/page.tsx`, of the network step client in the API
library, of the remove gating rendered by the `UploadProgress` component,
and of the file selection handlers in `frontend/components/file-upload.tsx`.

Network calls are modelled by an environment `Env` that fixes the outcome
and the duration of every call; wall-clock time is an explicit `Nat`
parameter measured in milliseconds, matching `Date.now()`.
-/

namespace UncTube

/-- The `UploadStatus` union type of `upload-progress`. -/
inductive UploadStatus
  | pending
  | uploading
  | processing
  | complete
  | error
deriving Repr, DecidableEq

/-- The name, mime type and byte size of a selected `File` object. -/
structure FileData where
  name : String
  mime : String
  size : Nat
deriving Repr, DecidableEq

/-- The `UploadItem` record of `upload-progress`: optional fields of the
TypeScript interface become `Option` values. -/
structure UploadItem where
  id : String
  file : FileData
  title : Option String := none
  description : Option String := none
  location : Option String := none
  date : Option String := none
  status : UploadStatus := UploadStatus.pending
  progress : Option Nat := some 0
  error : Option String := none
deriving Repr, DecidableEq

/-- A `Partial<UploadItem>` argument: `some v` means the key is present in
the update object, `none` means it is absent (so the old value is kept by
the object spread). -/
structure ItemUpdates where
  title : Option String := none
  description : Option String := none
  location : Option String := none
  date : Option String := none
  status : Option UploadStatus := none
  progress : Option Nat := none
  error : Option String := none
deriving Repr, DecidableEq

/-- The object spread `\x7b ...item, ...updates \x7d` used by
`updateUploadStatus` and `handleUpdateItem`: present keys overwrite, absent
keys keep the previous value.  The `id` and `file` fields are never part of
an update object in the source. -/
def applyUpdates (item : UploadItem) (u : ItemUpdates) : UploadItem :=
  { item with
    title := if u.title.isSome then u.title else item.title
    description := if u.description.isSome then u.description else item.description
    location := if u.location.isSome then u.location else item.location
    date := if u.date.isSome then u.date else item.date
    status := u.status.getD item.status
    progress := if u.progress.isSome then u.progress else item.progress
    error := if u.error.isSome then u.error else item.error }

/-- `updateUploadStatus` of `preserve/page.tsx` (lines 74-81): map over the
queue, merging the updates into the item with the given id. -/
def updateUploadStatus (q : List UploadItem) (id : String) (u : ItemUpdates) :
    List UploadItem :=
  q.map (fun item => if item.id == id then applyUpdates item u else item)

/-- Folding a whole sequence of update objects into a single item. -/
def applyAll (item : UploadItem) (us : List ItemUpdates) : UploadItem :=
  us.foldl applyUpdates item

/-- The response shape of `initUpload` in the API library. -/
structure InitResponse where
  upload_url : String
  object_key : String
  object_id : String
  expires_in : Nat
  max_bytes : Nat
deriving Repr, DecidableEq

/-- The response shape of `confirmUpload` in the API library. -/
structure ConfirmResponse where
  media_asset_id : String
  job_id : String
  bytes : Nat
deriving Repr, DecidableEq

/-- A memory unit returned by `getMemoryUnits`; only its identity matters
to the pipeline, which just tests for a non-empty array. -/
structure MemoryUnitOut where
  id : String
deriving Repr, DecidableEq

/-- The body built for `updateMemoryUnits` on lines 134-139 of
`preserve/page.tsx`: trimmed optional strings, with location and date each
wrapped into a single-element list when non-empty. -/
structure MemoryUnitUpdateRequest where
  title : Option String := none
  description : Option String := none
  places : Option (List String) := none
  dates : Option (List String) := none
deriving Repr, DecidableEq

/-- The five network calls of the pipeline step client. -/
inductive NetCall
  | init
  | s3put
  | confirm
  | getUnits
  | patch
deriving Repr, DecidableEq

/-- The environment a pipeline run executes against: the outcome and the
duration in milliseconds of every network call.  `getUnitsRes k` is the
outcome of the k-th `getMemoryUnits` call of the polling loop, counted from
zero.  `sleepExtra k` is the extra delay of the k-th `setTimeout(3000)`
beyond its nominal 3000 ms, so every sleep lasts at least 3000 ms by
construction. -/
structure Env where
  initRes : Except String InitResponse
  initDur : Nat
  s3Res : Except String Unit
  s3Dur : Nat
  confirmRes : Except String ConfirmResponse
  confirmDur : Nat
  getUnitsRes : Nat → Except String (List MemoryUnitOut)
  getUnitsDur : Nat → Nat
  sleepExtra : Nat → Nat
  patchRes : Except String (List MemoryUnitOut)

/-- Result of the polling watcher: whether units were observed, the clock
when the loop ended, the times at which the queries were issued, and the
message of a query rejection if one escaped the loop. -/
structure PollOut where
  hasUnits : Bool
  endTime : Nat
  queryTimes : List Nat
  thrown : Option String
deriving Repr, DecidableEq

/-- The polling watcher of `preserve/page.tsx` lines 123-132:
`while (Date.now() < deadline)` query `getMemoryUnits`, break on a
non-empty result, otherwise sleep 3000 ms and retry.  A rejected query
escapes the loop (to the surrounding catch). -/
def pollLoop (env : Env) (deadline k now : Nat) : PollOut :=
  if _h : now < deadline then
    match env.getUnitsRes k with
    | Except.error e =>
        { hasUnits := false
          endTime := now + env.getUnitsDur k
          queryTimes := [now]
          thrown := some e }
    | Except.ok units =>
        if 0 < units.length then
          { hasUnits := true
            endTime := now + env.getUnitsDur k
            queryTimes := [now]
            thrown := none }
        else
          let out := pollLoop env deadline (k + 1)
            (now + env.getUnitsDur k + 3000 + env.sleepExtra k)
          { out with queryTimes := now :: out.queryTimes }
  else
    { hasUnits := false, endTime := now, queryTimes := [], thrown := none }
termination_by deadline - now
decreasing_by omega

theorem pollLoop_firstHit (env : Env) (deadline k now : Nat)
    (us : List MemoryUnitOut) (h1 : now < deadline)
    (h2 : env.getUnitsRes k = Except.ok us) (h3 : 0 < us.length) :
    pollLoop env deadline k now =
      { hasUnits := true
        endTime := now + env.getUnitsDur k
        queryTimes := [now]
        thrown := none } := by
  unfold pollLoop
  rw [dif_pos h1, h2]
  simp [h3]

theorem pollLoop_length_bound (env : Env) (deadline : Nat) :
    ∀ k now, (pollLoop env deadline k now).queryTimes.length ≤
      (deadline - now + 2999) / 3000 := by
  intro k now
  induction k, now using pollLoop.induct env deadline with
  | case1 k now h e he =>
    rw [pollLoop, dif_pos h, he]
    simp
    omega
  | case2 k now h units hu hlen =>
    rw [pollLoop, dif_pos h, hu]
    simp only [hlen, if_true, List.length_singleton]
    omega
  | case3 k now h units hu hlen ih =>
    rw [pollLoop, dif_pos h, hu]
    simp only [hlen, if_false, List.length_cons]
    omega
  | case4 k now h =>
    rw [pollLoop, dif_neg h]
    simp

theorem pollLoop_times_mem (env : Env) (deadline : Nat) :
    ∀ k now t, t ∈ (pollLoop env deadline k now).queryTimes →
      now ≤ t ∧ t < deadline := by
  intro k now
  induction k, now using pollLoop.induct env deadline with
  | case1 k now h e he =>
    intro t ht
    rw [pollLoop, dif_pos h, he] at ht
    simp at ht
    omega
  | case2 k now h units hu hlen =>
    intro t ht
    rw [pollLoop, dif_pos h, hu] at ht
    simp [hlen] at ht
    omega
  | case3 k now h units hu hlen ih =>
    intro t ht
    rw [pollLoop, dif_pos h, hu] at ht
    simp only [hlen, if_false, List.mem_cons] at ht
    rcases ht with rfl | ht
    · omega
    · have := ih t ht
      omega
  | case4 k now h =>
    intro t ht
    rw [pollLoop, dif_neg h] at ht
    simp at ht

theorem pollLoop_prefix_empty (env : Env) (deadline : Nat) :
    ∀ k now j, j + 1 < (pollLoop env deadline k now).queryTimes.length →
      env.getUnitsRes (k + j) = Except.ok [] := by
  intro k now
  induction k, now using pollLoop.induct env deadline with
  | case1 k now h e he =>
    intro j hj
    rw [pollLoop, dif_pos h, he] at hj
    simp at hj
  | case2 k now h units hu hlen =>
    intro j hj
    rw [pollLoop, dif_pos h, hu] at hj
    simp [hlen] at hj
  | case3 k now h units hu hlen ih =>
    intro j hj
    rw [pollLoop, dif_pos h, hu] at hj
    simp only [hlen, if_false, List.length_cons] at hj
    match j with
    | 0 =>
      have : units = [] := by
        cases units with
        | nil => rfl
        | cons a l => exact absurd (by simp) hlen
      rw [Nat.add_zero, hu, this]
    | j + 1 =>
      have := ih j (by omega)
      rw [show k + (j + 1) = k + 1 + j by omega]
      exact this
  | case4 k now h =>
    intro j hj
    rw [pollLoop, dif_neg h] at hj
    simp at hj

theorem pollLoop_hasUnits_queryTimes_pos (env : Env) (deadline : Nat) :
    ∀ k now, (pollLoop env deadline k now).hasUnits = true →
      1 ≤ (pollLoop env deadline k now).queryTimes.length := by
  intro k now
  induction k, now using pollLoop.induct env deadline with
  | case1 k now h e he =>
    intro hh
    rw [pollLoop, dif_pos h, he]
    simp
  | case2 k now h units hu hlen =>
    intro hh
    rw [pollLoop, dif_pos h, hu]
    simp [hlen]
  | case3 k now h units hu hlen ih =>
    intro hh
    rw [pollLoop, dif_pos h, hu]
    simp [hlen]
  | case4 k now h =>
    intro hh
    rw [pollLoop, dif_neg h] at hh
    simp at hh

theorem pollLoop_hasUnits_last (env : Env) (deadline : Nat) :
    ∀ k now, (pollLoop env deadline k now).hasUnits = true →
      ∃ us, env.getUnitsRes
          (k + ((pollLoop env deadline k now).queryTimes.length - 1)) =
            Except.ok us ∧ 0 < us.length := by
  intro k now
  induction k, now using pollLoop.induct env deadline with
  | case1 k now h e he =>
    intro hh
    rw [pollLoop, dif_pos h, he] at hh
    simp at hh
  | case2 k now h units hu hlen =>
    intro hh
    rw [pollLoop, dif_pos h, hu]
    simp only [hlen, if_true, List.length_singleton]
    exact ⟨units, by simpa using hu, hlen⟩
  | case3 k now h units hu hlen ih =>
    intro hh
    rw [pollLoop, dif_pos h, hu] at hh ⊢
    simp only [hlen, if_false] at hh ⊢
    have hrec := ih hh
    have hlen1 := pollLoop_hasUnits_queryTimes_pos env deadline (k + 1)
      (now + env.getUnitsDur k + 3000 + env.sleepExtra k) hh
    simp only [List.length_cons]
    rcases hrec with ⟨us, hus, hpos⟩
    refine ⟨us, ?_, hpos⟩
    rw [show k + ((pollLoop env deadline (k + 1)
        (now + env.getUnitsDur k + 3000 + env.sleepExtra k)).queryTimes.length + 1 - 1) =
      k + 1 + ((pollLoop env deadline (k + 1)
        (now + env.getUnitsDur k + 3000 + env.sleepExtra k)).queryTimes.length - 1) by omega]
    exact hus
  | case4 k now h =>
    intro hh
    rw [pollLoop, dif_neg h] at hh
    simp at hh

theorem pollLoop_allEmpty (env : Env) (deadline : Nat)
    (hall : ∀ k, env.getUnitsRes k = Except.ok []) :
    ∀ k now, (pollLoop env deadline k now).hasUnits = false ∧
      (pollLoop env deadline k now).thrown = none := by
  intro k now
  induction k, now using pollLoop.induct env deadline with
  | case1 k now h e he =>
    rw [hall k] at he
    exact absurd he (by simp)
  | case2 k now h units hu hlen =>
    rw [hall k] at hu
    have : units = [] := by simpa using hu.symm
    subst this
    simp at hlen
  | case3 k now h units hu hlen ih =>
    rw [pollLoop, dif_pos h, hu]
    simp only [hlen, if_false]
    exact ih
  | case4 k now h =>
    rw [pollLoop, dif_neg h]
    simp

/-- The validation messages of `uploadFile`. -/
def requiredFieldsMessage : String :=
  "Title, location, and date are required before upload."

/-- The polling timeout message of `uploadFile`. -/
def timeoutMessage : String :=
  "Upload succeeded, but metadata could not be saved yet."

/-- The ECMAScript `String.prototype.trim`: drop whitespace from both ends
of the string.  Written over the character list so it evaluates inside the
kernel. -/
def trimString (s : String) : String :=
  String.mk
    (((s.data.dropWhile Char.isWhitespace).reverse.dropWhile Char.isWhitespace).reverse)

/-- `field?.trim()` on an optional string, with a missing field read as the
empty string (in the source a missing field is `undefined`, which is falsy
exactly like an empty trimmed string). -/
def optTrim (s : Option String) : String := trimString (s.getD "")

/-- The validation test on line 88 of `preserve/page.tsx`:
`!item.title?.trim() || !item.location?.trim() || !item.date?.trim()`. -/
def missingRequiredFields (item : UploadItem) : Bool :=
  optTrim item.title == "" || optTrim item.location == "" || optTrim item.date == ""

/-- The `updateMemoryUnits` request body built on lines 134-139: each
field is the trimmed user value or absent when empty, with location and
date wrapped into single-element lists. -/
def buildPatchBody (item : UploadItem) : MemoryUnitUpdateRequest :=
  { title := if optTrim item.title == "" then none else some (optTrim item.title)
    description :=
      if optTrim item.description == "" then none else some (optTrim item.description)
    places := if optTrim item.location == "" then none else some [optTrim item.location]
    dates := if optTrim item.date == "" then none else some [optTrim item.date] }

/-- Everything one run of `uploadFile` does besides mutating the queue:
the ordered `updateUploadStatus` payloads it issues, the ordered network
calls it makes, and whether it reached the final `mutateAssets()` refresh. -/
structure RunOut where
  updates : List ItemUpdates
  calls : List NetCall
  refreshed : Bool
deriving Repr, DecidableEq

/-- Clock value at which the polling watcher of a run starting at `now`
begins: the init, storage transfer and confirm durations have elapsed. -/
def pollStart (env : Env) (now : Nat) : Nat :=
  now + env.initDur + env.s3Dur + env.confirmDur

/-- The polling phase of a run starting at `now`: deadline is 90000 ms
after the watcher starts (`Date.now() + 90_000` on line 123), interval
3000 ms, first query index zero. -/
def pollPhase (env : Env) (now : Nat) : PollOut :=
  pollLoop env (pollStart env now + 90000) 0 (pollStart env now)

/-- Line 95: `updateUploadStatus(id, \x7b status: "uploading", progress: 10 \x7d)`. -/
def updStartUploading : ItemUpdates :=
  { status := some UploadStatus.uploading, progress := some 10 }

/-- Line 104: progress 30 after init succeeded. -/
def updProgress30 : ItemUpdates := { progress := some 30 }

/-- Line 108: progress 70 after the direct transfer succeeded. -/
def updProgress70 : ItemUpdates := { progress := some 70 }

/-- Line 119: status processing, progress 90 after confirm succeeded. -/
def updProcessing : ItemUpdates :=
  { status := some UploadStatus.processing, progress := some 90 }

/-- An error update: status error together with a message, issued by the
validation branch, the timeout branch and the catch block. -/
def updError (e : String) : ItemUpdates :=
  { status := some UploadStatus.error, error := some e }

/-- Line 149: status complete, progress 100. -/
def updComplete : ItemUpdates :=
  { status := some UploadStatus.complete, progress := some 100 }

/-- One run of `uploadFile` (lines 83-159 of `preserve/page.tsx`) against
environment `env`, on the captured `item` argument, starting at clock
`now`.  Every `await` that rejects jumps to the catch block, which issues a
single error update carrying the rejection message; the constant
`hasMetadata = true` guard of line 121-122 is always taken. -/
def uploadFileRun (env : Env) (item : UploadItem) (now : Nat) : RunOut :=
  if missingRequiredFields item then
    { updates := [updError requiredFieldsMessage]
      calls := []
      refreshed := false }
  else
    match env.initRes with
    | Except.error e =>
        { updates := [updStartUploading, updError e]
          calls := [NetCall.init]
          refreshed := false }
    | Except.ok _initResponse =>
      match env.s3Res with
      | Except.error e =>
          { updates := [updStartUploading, updProgress30, updError e]
            calls := [NetCall.init, NetCall.s3put]
            refreshed := false }
      | Except.ok _ =>
        match env.confirmRes with
        | Except.error e =>
            { updates := [updStartUploading, updProgress30, updProgress70, updError e]
              calls := [NetCall.init, NetCall.s3put, NetCall.confirm]
              refreshed := false }
        | Except.ok _confirmResponse =>
          let p := pollPhase env now
          let baseCalls := [NetCall.init, NetCall.s3put, NetCall.confirm] ++
            List.replicate p.queryTimes.length NetCall.getUnits
          match p.thrown with
          | some e =>
              { updates := [updStartUploading, updProgress30, updProgress70,
                  updProcessing, updError e]
                calls := baseCalls
                refreshed := false }
          | none =>
            if p.hasUnits then
              match env.patchRes with
              | Except.error e =>
                  { updates := [updStartUploading, updProgress30, updProgress70,
                      updProcessing, updError e]
                    calls := baseCalls ++ [NetCall.patch]
                    refreshed := false }
              | Except.ok _ =>
                  { updates := [updStartUploading, updProgress30, updProgress70,
                      updProcessing, updComplete]
                    calls := baseCalls ++ [NetCall.patch]
                    refreshed := true }
            else
              { updates := [updStartUploading, updProgress30, updProgress70,
                  updProcessing, updError timeoutMessage]
                calls := baseCalls
                refreshed := false }

/-- Applying the update sequence of a run to the shared queue, each step
through `updateUploadStatus` exactly as the source does. -/
def applyRun (q : List UploadItem) (id : String) (r : RunOut) : List UploadItem :=
  r.updates.foldl (fun acc u => updateUploadStatus acc id u) q

/-- `uploadFile` seen from the queue: the final queue together with the
record of what the run did. -/
def uploadFile (env : Env) (q : List UploadItem) (item : UploadItem) (now : Nat) :
    List UploadItem × RunOut :=
  let r := uploadFileRun env item now
  (applyRun q item.id r, r)

/-- `handleUploadItem` (lines 175-182): look the id up in the queue and,
when found, run `uploadFile` on the found item; unknown ids do nothing. -/
def handleUploadItem (env : Env) (q : List UploadItem) (id : String) (now : Nat) :
    List UploadItem × RunOut :=
  match q.find? (fun entry => entry.id == id) with
  | none => (q, { updates := [], calls := [], refreshed := false })
  | some item => uploadFile env q item now

/-- A fresh queue item as built by `handleFilesSelected` (lines 163-168):
status pending, progress zero, no metadata, no error. -/
def newUploadItem (f : FileData) (id : String) : UploadItem :=
  { id := id, file := f, status := UploadStatus.pending, progress := some 0 }

/-- `handleFilesSelected` (lines 161-173): append one fresh pending item
per selected file, ids drawn from the generator `freshId` by position. -/
def handleFilesSelected (freshId : Nat → String) (q : List UploadItem)
    (files : List FileData) : List UploadItem :=
  q ++ ((List.range files.length).zip files).map
    (fun p => newUploadItem p.2 (freshId p.1))

/-- `handleRemoveFromQueue` (lines 190-192): filter the id out of the
queue, with no status check of its own. -/
def handleRemoveFromQueue (q : List UploadItem) (id : String) : List UploadItem :=
  q.filter (fun item => item.id != id)

/-- The render guard of `UploadProgress` (upload-progress component): the
remove control of an item exists exactly when
`item.status === "complete" || item.status === "error"`. -/
def removeControlShown (item : UploadItem) : Bool :=
  item.status == UploadStatus.complete || item.status == UploadStatus.error

/-- The remove operation as reachable from the rendered queue: a click on
the remove control of the item with the given id runs
`handleRemoveFromQueue`, and the control only exists when the guard above
holds, so for any other status the queue cannot be touched. -/
def uiRemove (q : List UploadItem) (id : String) : List UploadItem :=
  match q.find? (fun entry => entry.id == id) with
  | some item =>
      if removeControlShown item then handleRemoveFromQueue q id else q
  | none => q

/-- The default of the `maxFiles` prop of `FileUpload`. -/
def defaultMaxFiles : Nat := 10

/-- `handleDrop` of `file-upload.tsx` (lines 46-58): when not disabled,
take the first `maxFiles` dropped files and forward them to the callback
only when at least one remains; `none` means the callback is not invoked. -/
def handleDrop (disabled : Bool) (maxFiles : Nat) (dropped : List FileData) :
    Option (List FileData) :=
  if disabled then none
  else
    let files := dropped.take maxFiles
    if 0 < files.length then some files else none

/-- `handleFileChange` of `file-upload.tsx` (lines 60-71): same capping
for the file picker. -/
def handleFileChange (maxFiles : Nat) (selected : List FileData) :
    Option (List FileData) :=
  let files := selected.take maxFiles
  if 0 < files.length then some files else none

/-- Statuses an observer of the queue sees for the tracked item: the value
before the run and after each `updateUploadStatus` call. -/
def statusTrace (item : UploadItem) (us : List ItemUpdates) : List UploadStatus :=
  (us.scanl applyUpdates item).map (fun x => x.status)

/-- The forward ordering of the specification:
pending before uploading before processing before the terminal states. -/
def statusRank : UploadStatus → Nat
  | UploadStatus.pending => 0
  | UploadStatus.uploading => 1
  | UploadStatus.processing => 2
  | UploadStatus.complete => 3
  | UploadStatus.error => 3

/-! Concrete fixtures used by witnesses and counterexamples. -/

def fileA : FileData := { name := "photo.png", mime := "image/png", size := 5 }

def fileB : FileData := { name := "letter.txt", mime := "text/plain", size := 7 }

def fileC : FileData := { name := "voice.mp3", mime := "audio/mpeg", size := 9 }

def unitA : MemoryUnitOut := { id := "unit-1" }

def initResponseA : InitResponse :=
  { upload_url := "https://storage.example/put"
    object_key := "k1"
    object_id := "o1"
    expires_in := 600
    max_bytes := 104857600 }

def confirmResponseA : ConfirmResponse :=
  { media_asset_id := "asset-1", job_id := "job-1", bytes := 5 }

/-- Environment in which every network call succeeds and the first poll
already sees one extracted unit. -/
def envAllOk : Env :=
  { initRes := Except.ok initResponseA
    initDur := 0
    s3Res := Except.ok ()
    s3Dur := 0
    confirmRes := Except.ok confirmResponseA
    confirmDur := 0
    getUnitsRes := fun _ => Except.ok [unitA]
    getUnitsDur := fun _ => 0
    sleepExtra := fun _ => 0
    patchRes := Except.ok [unitA] }

/-- Environment in which `getMemoryUnits` always answers an empty list. -/
def envAllEmpty : Env := { envAllOk with getUnitsRes := fun _ => Except.ok [] }

/-- Environment in which the direct storage transfer rejects. -/
def envS3Fail : Env :=
  { envAllOk with s3Res := Except.error "Failed to upload file to S3" }

/-- Environment in which the metadata patch rejects. -/
def envPatchFail : Env :=
  { envAllOk with patchRes := Except.error "API Error: 500 Internal Server Error" }

/-- A pending item with all three required metadata fields supplied. -/
def itemPendingA : UploadItem :=
  { id := "a"
    file := fileA
    title := some "Summer at the lake"
    location := some "Vancouver"
    date := some "1989-07-14" }

/-- A pending item whose location was never supplied. -/
def itemMissingLocation : UploadItem :=
  { id := "b", file := fileA, title := some "Summer", date := some "1989-07-14" }

/-- An item that failed a previous dispatch: status error, message kept. -/
def itemErrorA : UploadItem :=
  { itemPendingA with
    status := UploadStatus.error
    progress := some 10
    error := some "Upload failed" }

/-- An item that already completed a dispatch. -/
def itemCompleteA : UploadItem :=
  { itemPendingA with status := UploadStatus.complete, progress := some 100 }

/-- Claim C2 (confirmed): dispatching an item in which a required field is
missing or empty after trimming performs no network call, sets the status
of that item to error with the fixed requirement message, and leaves every
other item of the queue unchanged. -/
theorem C2_validation_blocks_dispatch (env : Env) (q : List UploadItem)
    (item : UploadItem) (now : Nat) (h : missingRequiredFields item = true) :
    (uploadFileRun env item now).calls = [] ∧
    (applyAll item (uploadFileRun env item now).updates).status = UploadStatus.error ∧
    (applyAll item (uploadFileRun env item now).updates).error =
      some requiredFieldsMessage ∧
    (uploadFile env q item now).1 =
      q.map (fun x =>
        if x.id == item.id
        then { x with status := UploadStatus.error, error := some requiredFieldsMessage }
        else x) ∧
    ∀ x ∈ q, x.id ≠ item.id → x ∈ (uploadFile env q item now).1 := by
  refine ⟨?_, ?_, ?_, ?_, ?_⟩
  · simp [uploadFileRun, h]
  · simp [uploadFileRun, h, applyAll, applyUpdates, updError]
  · simp [uploadFileRun, h, applyAll, applyUpdates, updError]
  · simp only [uploadFile, uploadFileRun, h, if_true, applyRun, List.foldl_cons,
      List.foldl_nil, updateUploadStatus]
    apply List.map_congr_left
    intro x _
    by_cases hx : x.id == item.id
    · simp [hx, applyUpdates, updError]
    · simp [hx]
  · intro x hx hne
    simp only [uploadFile, uploadFileRun, h, if_true, applyRun, List.foldl_cons,
      List.foldl_nil, updateUploadStatus]
    refine List.mem_map.2 ⟨x, hx, ?_⟩
    simp [hne]

/-- Witness for C2: a concrete item with no location is blocked. -/
theorem C2_validation_blocks_dispatch_witness :
    (uploadFileRun envAllOk itemMissingLocation 0).calls = [] ∧
    (applyAll itemMissingLocation
      (uploadFileRun envAllOk itemMissingLocation 0).updates).status =
        UploadStatus.error ∧
    (applyAll itemMissingLocation
      (uploadFileRun envAllOk itemMissingLocation 0).updates).error =
        some requiredFieldsMessage := by
  have h := C2_validation_blocks_dispatch envAllOk [itemMissingLocation]
    itemMissingLocation 0 (by decide)
  exact ⟨h.1, h.2.1, h.2.2.1⟩

/-- Claim C4 (confirmed): whichever step of the saga fails first — init,
direct storage transfer, confirm, a poll query, or the metadata patch —
no later step runs and the item ends in error carrying the failure
message.  In particular a failed transfer never reaches confirm. -/
theorem C4_step_failure_stops_saga (env : Env) (item : UploadItem) (now : Nat)
    (hv : missingRequiredFields item = false) :
    (∀ e, env.initRes = Except.error e →
      (uploadFileRun env item now).calls = [NetCall.init] ∧
      (applyAll item (uploadFileRun env item now).updates).status = UploadStatus.error ∧
      (applyAll item (uploadFileRun env item now).updates).error = some e) ∧
    (∀ ir e, env.initRes = Except.ok ir → env.s3Res = Except.error e →
      (uploadFileRun env item now).calls = [NetCall.init, NetCall.s3put] ∧
      NetCall.confirm ∉ (uploadFileRun env item now).calls ∧
      NetCall.getUnits ∉ (uploadFileRun env item now).calls ∧
      NetCall.patch ∉ (uploadFileRun env item now).calls ∧
      (applyAll item (uploadFileRun env item now).updates).status = UploadStatus.error ∧
      (applyAll item (uploadFileRun env item now).updates).error = some e) ∧
    (∀ ir e, env.initRes = Except.ok ir → env.s3Res = Except.ok () →
        env.confirmRes = Except.error e →
      (uploadFileRun env item now).calls = [NetCall.init, NetCall.s3put, NetCall.confirm] ∧
      NetCall.getUnits ∉ (uploadFileRun env item now).calls ∧
      NetCall.patch ∉ (uploadFileRun env item now).calls ∧
      (applyAll item (uploadFileRun env item now).updates).status = UploadStatus.error ∧
      (applyAll item (uploadFileRun env item now).updates).error = some e) ∧
    (∀ ir cr e, env.initRes = Except.ok ir → env.s3Res = Except.ok () →
        env.confirmRes = Except.ok cr → (pollPhase env now).thrown = some e →
      NetCall.patch ∉ (uploadFileRun env item now).calls ∧
      (applyAll item (uploadFileRun env item now).updates).status = UploadStatus.error ∧
      (applyAll item (uploadFileRun env item now).updates).error = some e) ∧
    (∀ ir cr e, env.initRes = Except.ok ir → env.s3Res = Except.ok () →
        env.confirmRes = Except.ok cr → (pollPhase env now).thrown = none →
        (pollPhase env now).hasUnits = true → env.patchRes = Except.error e →
      (applyAll item (uploadFileRun env item now).updates).status = UploadStatus.error ∧
      (applyAll item (uploadFileRun env item now).updates).error = some e ∧
      (uploadFileRun env item now).refreshed = false) := by
  refine ⟨?_, ?_, ?_, ?_, ?_⟩
  · intro e hi
    simp [uploadFileRun, hv, hi, applyAll, applyUpdates, updStartUploading, updError]
  · intro ir e hi hs
    simp [uploadFileRun, hv, hi, hs, applyAll, applyUpdates, updStartUploading, updProgress30, updError]
  · intro ir e hi hs hc
    simp [uploadFileRun, hv, hi, hs, hc, applyAll, applyUpdates, updStartUploading, updProgress30, updProgress70, updError]
  · intro ir cr e hi hs hc ht
    simp [uploadFileRun, hv, hi, hs, hc, ht, applyAll, applyUpdates,
      updStartUploading, updProgress30, updProgress70, updProcessing, updError,
      List.mem_append, List.mem_replicate]
  · intro ir cr e hi hs hc ht hh hp
    simp [uploadFileRun, hv, hi, hs, hc, ht, hh, hp, applyAll, applyUpdates, updStartUploading, updProgress30, updProgress70, updProcessing, updError, updComplete]

/-- Witness for C4: a run whose direct storage transfer rejects makes the
init and transfer calls only, never confirms, and parks the item in error
with the transfer message. -/
theorem C4_step_failure_stops_saga_witness :
    (uploadFileRun envS3Fail itemPendingA 0).calls = [NetCall.init, NetCall.s3put] ∧
    NetCall.confirm ∉ (uploadFileRun envS3Fail itemPendingA 0).calls ∧
    (applyAll itemPendingA (uploadFileRun envS3Fail itemPendingA 0).updates).status =
      UploadStatus.error ∧
    (applyAll itemPendingA (uploadFileRun envS3Fail itemPendingA 0).updates).error =
      some "Failed to upload file to S3" := by
  have h := (C4_step_failure_stops_saga envS3Fail itemPendingA 0 (by decide)).2.1
    initResponseA "Failed to upload file to S3" rfl rfl
  exact ⟨h.1, h.2.1, h.2.2.2.2.1, h.2.2.2.2.2⟩

/-- Claim C3 (confirmed): a watcher run with deadline 90 s and interval
3 s makes at most 30 queries, every query is issued strictly before the
deadline measured from watcher start, every query except possibly the last
saw an empty result (the loop stops at the first non-empty one), and a
successful loop ends on a query that returned a non-empty list. -/
theorem C3_watcher_bounded (env : Env) (start : Nat) :
    (pollLoop env (start + 90000) 0 start).queryTimes.length ≤ 30 ∧
    (∀ t ∈ (pollLoop env (start + 90000) 0 start).queryTimes,
      start ≤ t ∧ t < start + 90000) ∧
    (∀ j, j + 1 < (pollLoop env (start + 90000) 0 start).queryTimes.length →
      env.getUnitsRes j = Except.ok []) ∧
    ((pollLoop env (start + 90000) 0 start).hasUnits = true →
      ∃ us, env.getUnitsRes
          ((pollLoop env (start + 90000) 0 start).queryTimes.length - 1) =
        Except.ok us ∧ 0 < us.length) := by
  refine ⟨?_, ?_, ?_, ?_⟩
  · have h := pollLoop_length_bound env (start + 90000) 0 start
    omega
  · exact pollLoop_times_mem env (start + 90000) 0 start
  · intro j hj
    have h := pollLoop_prefix_empty env (start + 90000) 0 start j hj
    simpa using h
  · intro hh
    have h := pollLoop_hasUnits_last env (start + 90000) 0 start hh
    simpa using h

/-- Witness for C3: in the all-success environment the watcher makes at
most thirty queries and its single query falls inside the deadline. -/
theorem C3_watcher_bounded_witness :
    (pollLoop envAllOk (0 + 90000) 0 0).queryTimes.length ≤ 30 ∧
    (0 ≤ 0 ∧ 0 < 0 + 90000) := by
  have hfirst : pollLoop envAllOk (0 + 90000) 0 0 =
      { hasUnits := true, endTime := 0, queryTimes := [0], thrown := none } := by
    have h := pollLoop_firstHit envAllOk (0 + 90000) 0 0 [unitA]
      (by omega) rfl (by decide)
    simpa using h
  have h := C3_watcher_bounded envAllOk 0
  refine ⟨h.1, h.2.1 0 ?_⟩
  rw [hfirst]
  simp

/-- Claim C5 (confirmed): when init, transfer and confirm succeed but
every poll query answers an empty list, the item ends in error with
exactly the timeout message, the metadata patch is never issued, and no
asset refresh happens. -/
theorem C5_poll_timeout_is_error (env : Env) (item : UploadItem) (now : Nat)
    (ir : InitResponse) (cr : ConfirmResponse)
    (hv : missingRequiredFields item = false)
    (hi : env.initRes = Except.ok ir)
    (hs : env.s3Res = Except.ok ())
    (hc : env.confirmRes = Except.ok cr)
    (hu : ∀ k, env.getUnitsRes k = Except.ok []) :
    (applyAll item (uploadFileRun env item now).updates).status = UploadStatus.error ∧
    (applyAll item (uploadFileRun env item now).updates).error = some timeoutMessage ∧
    NetCall.patch ∉ (uploadFileRun env item now).calls ∧
    (uploadFileRun env item now).refreshed = false := by
  have hpoll := pollLoop_allEmpty env (pollStart env now + 90000) hu 0 (pollStart env now)
  have hh : (pollPhase env now).hasUnits = false := hpoll.1
  have ht : (pollPhase env now).thrown = none := hpoll.2
  simp [uploadFileRun, hv, hi, hs, hc, ht, hh, applyAll, applyUpdates,
    updStartUploading, updProgress30, updProgress70, updProcessing, updError,
    List.mem_append, List.mem_replicate]

/-- Witness for C5: the environment whose poll results are always empty
drives a valid item into the timeout error. -/
theorem C5_poll_timeout_is_error_witness :
    (applyAll itemPendingA (uploadFileRun envAllEmpty itemPendingA 0).updates).status =
      UploadStatus.error ∧
    (applyAll itemPendingA (uploadFileRun envAllEmpty itemPendingA 0).updates).error =
      some timeoutMessage ∧
    NetCall.patch ∉ (uploadFileRun envAllEmpty itemPendingA 0).calls := by
  have h := C5_poll_timeout_is_error envAllEmpty itemPendingA 0
    initResponseA confirmResponseA (by decide) rfl rfl rfl (fun _ => rfl)
  exact ⟨h.1, h.2.1, h.2.2.1⟩

/-- Counterexample to claim C6: with every earlier step succeeding, the
first poll seeing a unit, and the metadata patch rejecting, the run ends
in error — not on the complete / progress 100 success path the claim
asserts (a rejected `updateMemoryUnits` is caught like any other step
failure). -/
theorem C6_counterexample :
    (applyAll itemPendingA (uploadFileRun envPatchFail itemPendingA 0).updates).status =
      UploadStatus.error ∧
    (applyAll itemPendingA (uploadFileRun envPatchFail itemPendingA 0).updates).status ≠
      UploadStatus.complete ∧
    (applyAll itemPendingA (uploadFileRun envPatchFail itemPendingA 0).updates).progress ≠
      some 100 ∧
    (applyAll itemPendingA (uploadFileRun envPatchFail itemPendingA 0).updates).error =
      some "API Error: 500 Internal Server Error" ∧
    (uploadFileRun envPatchFail itemPendingA 0).refreshed = false := by
  have hfirst : pollPhase envPatchFail 0 =
      { hasUnits := true, endTime := 0, queryTimes := [0], thrown := none } := by
    have h := pollLoop_firstHit envPatchFail (pollStart envPatchFail 0 + 90000)
      0 (pollStart envPatchFail 0) [unitA] (by decide) rfl (by decide)
    simpa [pollPhase] using h
  have hv : missingRequiredFields itemPendingA = false := by decide
  have hi : envPatchFail.initRes = Except.ok initResponseA := rfl
  have hs : envPatchFail.s3Res = Except.ok () := rfl
  have hc : envPatchFail.confirmRes = Except.ok confirmResponseA := rfl
  have hp : envPatchFail.patchRes =
      Except.error "API Error: 500 Internal Server Error" := rfl
  simp [uploadFileRun, hv, hi, hs, hc, hp, hfirst, applyAll, applyUpdates, updStartUploading, updProgress30, updProgress70, updProcessing, updError]

/-- Claim C6 as amended: a failed metadata patch does not reach the
success path — the item ends in error with the patch failure message and
progress still 90, and no asset refresh happens; only a successful patch
yields complete, progress 100 and the refresh. -/
theorem C6_amended_patch_failure_ends_in_error (env : Env) (item : UploadItem)
    (now : Nat) (ir : InitResponse) (cr : ConfirmResponse)
    (hv : missingRequiredFields item = false)
    (hi : env.initRes = Except.ok ir)
    (hs : env.s3Res = Except.ok ())
    (hc : env.confirmRes = Except.ok cr)
    (ht : (pollPhase env now).thrown = none)
    (hh : (pollPhase env now).hasUnits = true) :
    (∀ e, env.patchRes = Except.error e →
      (applyAll item (uploadFileRun env item now).updates).status = UploadStatus.error ∧
      (applyAll item (uploadFileRun env item now).updates).error = some e ∧
      (applyAll item (uploadFileRun env item now).updates).progress = some 90 ∧
      NetCall.patch ∈ (uploadFileRun env item now).calls ∧
      (uploadFileRun env item now).refreshed = false) ∧
    (∀ us, env.patchRes = Except.ok us →
      (applyAll item (uploadFileRun env item now).updates).status =
        UploadStatus.complete ∧
      (applyAll item (uploadFileRun env item now).updates).progress = some 100 ∧
      (uploadFileRun env item now).refreshed = true) := by
  constructor
  · intro e hp
    simp [uploadFileRun, hv, hi, hs, hc, ht, hh, hp, applyAll, applyUpdates, updStartUploading, updProgress30, updProgress70, updProcessing, updError, updComplete]
  · intro us hp
    simp [uploadFileRun, hv, hi, hs, hc, ht, hh, hp, applyAll, applyUpdates, updStartUploading, updProgress30, updProgress70, updProcessing, updError, updComplete]

/-- Witness for the amended C6 at the concrete patch-failure environment. -/
theorem C6_amended_patch_failure_ends_in_error_witness :
    (applyAll itemPendingA (uploadFileRun envPatchFail itemPendingA 0).updates).status =
      UploadStatus.error ∧
    (uploadFileRun envPatchFail itemPendingA 0).refreshed = false := by
  have hfirst : pollPhase envPatchFail 0 =
      { hasUnits := true, endTime := 0, queryTimes := [0], thrown := none } := by
    have h := pollLoop_firstHit envPatchFail (pollStart envPatchFail 0 + 90000)
      0 (pollStart envPatchFail 0) [unitA] (by decide) rfl (by decide)
    simpa [pollPhase] using h
  have h := (C6_amended_patch_failure_ends_in_error envPatchFail itemPendingA 0
      initResponseA confirmResponseA (by decide) rfl rfl rfl
      (by rw [hfirst]) (by rw [hfirst])).1
    "API Error: 500 Internal Server Error" rfl
  exact ⟨h.1, h.2.2.2.2⟩

/-- Every run issues one of six update sequences: the validation error,
a failure after one, two, three or four regular updates, or the full
success sequence. -/
theorem uploadFileRun_updates_enum (env : Env) (item : UploadItem) (now : Nat) :
    (missingRequiredFields item = true ∧
      (uploadFileRun env item now).updates = [updError requiredFieldsMessage]) ∨
    (missingRequiredFields item = false ∧
      ((∃ e, (uploadFileRun env item now).updates = [updStartUploading, updError e]) ∨
       (∃ e, (uploadFileRun env item now).updates =
         [updStartUploading, updProgress30, updError e]) ∨
       (∃ e, (uploadFileRun env item now).updates =
         [updStartUploading, updProgress30, updProgress70, updError e]) ∨
       (∃ e, (uploadFileRun env item now).updates =
         [updStartUploading, updProgress30, updProgress70, updProcessing, updError e]) ∨
       (uploadFileRun env item now).updates =
         [updStartUploading, updProgress30, updProgress70, updProcessing,
          updComplete])) := by
  cases hv : missingRequiredFields item with
  | true =>
    left
    exact ⟨rfl, by simp [uploadFileRun, hv]⟩
  | false =>
    right
    refine ⟨rfl, ?_⟩
    cases hi : env.initRes with
    | error e =>
      left
      exact ⟨e, by simp [uploadFileRun, hv, hi]⟩
    | ok ir =>
      cases hs : env.s3Res with
      | error e =>
        right; left
        exact ⟨e, by simp [uploadFileRun, hv, hi, hs]⟩
      | ok un =>
        cases hc : env.confirmRes with
        | error e =>
          right; right; left
          exact ⟨e, by simp [uploadFileRun, hv, hi, hs, hc]⟩
        | ok cr =>
          cases ht : (pollPhase env now).thrown with
          | some e =>
            right; right; right; left
            exact ⟨e, by simp [uploadFileRun, hv, hi, hs, hc, ht]⟩
          | none =>
            cases hh : (pollPhase env now).hasUnits with
            | false =>
              right; right; right; left
              exact ⟨timeoutMessage, by simp [uploadFileRun, hv, hi, hs, hc, ht, hh]⟩
            | true =>
              cases hp : env.patchRes with
              | error e =>
                right; right; right; left
                exact ⟨e, by simp [uploadFileRun, hv, hi, hs, hc, ht, hh, hp]⟩
              | ok us =>
                right; right; right; right
                simp [uploadFileRun, hv, hi, hs, hc, ht, hh, hp]

/-- Claim C1 as amended: within a single pipeline run launched on a
pending item the observed status sequence only moves forward through the
ordering, and no update ever sets the status back to pending; however a
new run on any item with valid required fields always begins by setting
status uploading, so re-dispatching an Error or Complete item does move it
back to uploading (a fresh saga, not a forward transition). -/
theorem C1_amended_forward_within_run (env : Env) (item : UploadItem) (now : Nat) :
    (item.status = UploadStatus.pending →
      List.Chain' (fun a b => statusRank a ≤ statusRank b)
        (statusTrace item (uploadFileRun env item now).updates)) ∧
    (∀ u ∈ (uploadFileRun env item now).updates,
      u.status ≠ some UploadStatus.pending) ∧
    (missingRequiredFields item = false →
      (uploadFileRun env item now).updates.head? = some updStartUploading) := by
  rcases uploadFileRun_updates_enum env item now with
    ⟨hv, h⟩ | ⟨hv, ⟨e, h⟩ | ⟨e, h⟩ | ⟨e, h⟩ | ⟨e, h⟩ | h⟩
  all_goals refine ⟨fun hp => ?_, fun u hu => ?_, fun hval => ?_⟩
  all_goals rw [h] at *
  -- the six shapes, three goals each: chain, membership, head
  case _ => simp [statusTrace, applyUpdates, updError, statusRank, hp]
  case _ =>
    simp only [List.mem_singleton] at hu
    subst hu
    simp [updError]
  case _ => rw [hv] at hval; exact absurd hval (by simp)
  all_goals first
    | (simp [statusTrace, applyUpdates, updStartUploading, updProgress30,
        updProgress70, updProcessing, updError, updComplete, statusRank, hp])
    | (simp only [List.mem_cons, List.not_mem_nil, or_false] at hu
       rcases hu with rfl | rfl | rfl | rfl | rfl <;>
         simp [updStartUploading, updProgress30, updProgress70, updProcessing,
           updError, updComplete])
    | rfl

/-- Witness for the amended C1 at a concrete pending item. -/
theorem C1_amended_forward_within_run_witness :
    List.Chain' (fun a b => statusRank a ≤ statusRank b)
      (statusTrace itemPendingA (uploadFileRun envAllOk itemPendingA 0).updates) ∧
    (uploadFileRun envAllOk itemPendingA 0).updates.head? = some updStartUploading := by
  have h := C1_amended_forward_within_run envAllOk itemPendingA 0
  exact ⟨h.1 rfl, h.2.2 (by decide)⟩

/-- Counterexample to claim C1: re-dispatching a failed item (status
error, valid metadata) through `handleUploadItem` moves its status back to
uploading — the observed sequence error, uploading, ... is a backward
transition under the claimed ordering. -/
theorem C1_counterexample :
    statusTrace itemErrorA (handleUploadItem envAllOk [itemErrorA] "a" 0).2.updates =
      [UploadStatus.error, UploadStatus.uploading, UploadStatus.uploading,
       UploadStatus.uploading, UploadStatus.processing, UploadStatus.complete] ∧
    ¬ List.Chain' (fun a b => statusRank a ≤ statusRank b)
      (statusTrace itemErrorA
        (handleUploadItem envAllOk [itemErrorA] "a" 0).2.updates) := by
  have hfirst : pollPhase envAllOk 0 =
      { hasUnits := true, endTime := 0, queryTimes := [0], thrown := none } := by
    have h := pollLoop_firstHit envAllOk (pollStart envAllOk 0 + 90000)
      0 (pollStart envAllOk 0) [unitA] (by decide) rfl (by decide)
    simpa [pollPhase] using h
  have hrun : (handleUploadItem envAllOk [itemErrorA] "a" 0).2.updates =
      [updStartUploading, updProgress30, updProgress70, updProcessing,
       updComplete] := by
    have hv : missingRequiredFields itemErrorA = false := by decide
    have hi : envAllOk.initRes = Except.ok initResponseA := rfl
    have hs : envAllOk.s3Res = Except.ok () := rfl
    have hc : envAllOk.confirmRes = Except.ok confirmResponseA := rfl
    have hp : envAllOk.patchRes = Except.ok [unitA] := rfl
    have hfind : ([itemErrorA].find? (fun entry => entry.id == "a")) =
        some itemErrorA := rfl
    simp [handleUploadItem, hfind, uploadFile, uploadFileRun, hv, hi, hs, hc, hp,
      hfirst]
  have htrace : statusTrace itemErrorA
      (handleUploadItem envAllOk [itemErrorA] "a" 0).2.updates =
      [UploadStatus.error, UploadStatus.uploading, UploadStatus.uploading,
       UploadStatus.uploading, UploadStatus.processing, UploadStatus.complete] := by
    rw [hrun]
    have hst : itemErrorA.status = UploadStatus.error := rfl
    simp [statusTrace, applyUpdates, updStartUploading, updProgress30,
      updProgress70, updProcessing, updComplete, hst]
  refine ⟨htrace, ?_⟩
  rw [htrace]
  intro hchain
  have h1 := hchain.rel_head
  simp [statusRank] at h1

/-- Every run makes one of six call sequences, and only the validation
failure makes none. -/
theorem uploadFileRun_calls_enum (env : Env) (item : UploadItem) (now : Nat) :
    (missingRequiredFields item = true ∧ (uploadFileRun env item now).calls = []) ∨
    (missingRequiredFields item = false ∧
      ((uploadFileRun env item now).calls = [NetCall.init] ∨
       (uploadFileRun env item now).calls = [NetCall.init, NetCall.s3put] ∨
       (uploadFileRun env item now).calls =
         [NetCall.init, NetCall.s3put, NetCall.confirm] ∨
       (∃ n, (uploadFileRun env item now).calls =
         [NetCall.init, NetCall.s3put, NetCall.confirm] ++
           List.replicate n NetCall.getUnits) ∨
       (∃ n, (uploadFileRun env item now).calls =
         [NetCall.init, NetCall.s3put, NetCall.confirm] ++
           List.replicate n NetCall.getUnits ++ [NetCall.patch]))) := by
  cases hv : missingRequiredFields item with
  | true =>
    left
    exact ⟨rfl, by simp [uploadFileRun, hv]⟩
  | false =>
    right
    refine ⟨rfl, ?_⟩
    cases hi : env.initRes with
    | error e => left; simp [uploadFileRun, hv, hi]
    | ok ir =>
      cases hs : env.s3Res with
      | error e => right; left; simp [uploadFileRun, hv, hi, hs]
      | ok un =>
        cases hc : env.confirmRes with
        | error e => right; right; left; simp [uploadFileRun, hv, hi, hs, hc]
        | ok cr =>
          cases ht : (pollPhase env now).thrown with
          | some e =>
            right; right; right; left
            exact ⟨(pollPhase env now).queryTimes.length,
              by simp [uploadFileRun, hv, hi, hs, hc, ht]⟩
          | none =>
            cases hh : (pollPhase env now).hasUnits with
            | false =>
              right; right; right; left
              exact ⟨(pollPhase env now).queryTimes.length,
                by simp [uploadFileRun, hv, hi, hs, hc, ht, hh]⟩
            | true =>
              cases hp : env.patchRes with
              | error e =>
                right; right; right; right
                exact ⟨(pollPhase env now).queryTimes.length,
                  by simp [uploadFileRun, hv, hi, hs, hc, ht, hh, hp]⟩
              | ok us =>
                right; right; right; right
                exact ⟨(pollPhase env now).queryTimes.length,
                  by simp [uploadFileRun, hv, hi, hs, hc, ht, hh, hp]⟩

/-- Counterexample to claim C7: invoking dispatch again on a Complete item
is not a no-op — the whole pipeline re-runs, making all five network call
kinds, and the item is observed back in status uploading right after the
first update. -/
theorem C7_counterexample :
    (handleUploadItem envAllOk [itemCompleteA] "a" 0).2.calls =
      [NetCall.init, NetCall.s3put, NetCall.confirm, NetCall.getUnits,
       NetCall.patch] ∧
    (handleUploadItem envAllOk [itemCompleteA] "a" 0).2.calls ≠ [] ∧
    (statusTrace itemCompleteA
        (handleUploadItem envAllOk [itemCompleteA] "a" 0).2.updates).get? 1 =
      some UploadStatus.uploading := by
  have hfirst : pollPhase envAllOk 0 =
      { hasUnits := true, endTime := 0, queryTimes := [0], thrown := none } := by
    have h := pollLoop_firstHit envAllOk (pollStart envAllOk 0 + 90000)
      0 (pollStart envAllOk 0) [unitA] (by decide) rfl (by decide)
    simpa [pollPhase] using h
  have hv : missingRequiredFields itemCompleteA = false := by decide
  have hi : envAllOk.initRes = Except.ok initResponseA := rfl
  have hs : envAllOk.s3Res = Except.ok () := rfl
  have hc : envAllOk.confirmRes = Except.ok confirmResponseA := rfl
  have hp : envAllOk.patchRes = Except.ok [unitA] := rfl
  have hfind : ([itemCompleteA].find? (fun entry => entry.id == "a")) =
      some itemCompleteA := rfl
  refine ⟨?_, ?_, ?_⟩
  · simp [handleUploadItem, hfind, uploadFile, uploadFileRun, hv, hi, hs, hc, hp,
      hfirst]
  · simp [handleUploadItem, hfind, uploadFile, uploadFileRun, hv, hi, hs, hc, hp,
      hfirst]
  · simp [handleUploadItem, hfind, uploadFile, uploadFileRun, hv, hi, hs, hc, hp,
      hfirst, statusTrace, applyUpdates, updStartUploading]

/-- Claim C7 as amended: dispatch is a no-op only for an id that is not in
the queue; on a found item with valid required fields — whatever its
status, including Complete — the run re-enters the pipeline: its first
queue update sets status uploading and its first network call is init. -/
theorem C7_amended_redispatch_reruns (env : Env) (q : List UploadItem)
    (id : String) (now : Nat) :
    (q.find? (fun entry => entry.id == id) = none →
      handleUploadItem env q id now =
        (q, { updates := [], calls := [], refreshed := false })) ∧
    (∀ item, q.find? (fun entry => entry.id == id) = some item →
      missingRequiredFields item = false →
      (handleUploadItem env q id now).2.calls.head? = some NetCall.init ∧
      (handleUploadItem env q id now).2.updates.head? = some updStartUploading) := by
  constructor
  · intro hf
    simp [handleUploadItem, hf]
  · intro item hf hval
    have hcalls := uploadFileRun_calls_enum env item now
    have hupdates := uploadFileRun_updates_enum env item now
    rw [hval] at hcalls hupdates
    simp only [handleUploadItem, hf, uploadFile]
    constructor
    · rcases hcalls with ⟨hfalse, _⟩ | ⟨_, h | h | h | ⟨n, h⟩ | ⟨n, h⟩⟩
      · exact absurd hfalse (by simp)
      all_goals rw [h]
      all_goals rfl
    · rcases hupdates with ⟨hfalse, _⟩ | ⟨_, ⟨e, h⟩ | ⟨e, h⟩ | ⟨e, h⟩ | ⟨e, h⟩ | h⟩
      · exact absurd hfalse (by simp)
      all_goals rw [h]
      all_goals rfl

/-- Witness for the amended C7: the unknown id is a no-op, and the
re-dispatch of the concrete Complete item starts with init and uploading. -/
theorem C7_amended_redispatch_reruns_witness :
    handleUploadItem envAllOk [itemCompleteA] "zzz" 0 =
      ([itemCompleteA], { updates := [], calls := [], refreshed := false }) ∧
    (handleUploadItem envAllOk [itemCompleteA] "a" 0).2.calls.head? =
      some NetCall.init ∧
    (handleUploadItem envAllOk [itemCompleteA] "a" 0).2.updates.head? =
      some updStartUploading := by
  have h1 := (C7_amended_redispatch_reruns envAllOk [itemCompleteA] "zzz" 0).1
    (by decide)
  have h2 := (C7_amended_redispatch_reruns envAllOk [itemCompleteA] "a" 0).2
    itemCompleteA (by decide) (by decide)
  exact ⟨h1, h2.1, h2.2⟩

/-- Counterexample to claim C9: after re-dispatching the failed item in
an all-success environment, the queue holds the item with status complete
and the stale error message still attached — a non-error status carrying a
non-empty error message (no update ever clears the field). -/
theorem C9_counterexample :
    ((handleUploadItem envAllOk [itemErrorA] "a" 0).1.head?.map
        (fun x => (x.status, x.error))) =
      some (UploadStatus.complete, some "Upload failed") := by
  have hfirst : pollPhase envAllOk 0 =
      { hasUnits := true, endTime := 0, queryTimes := [0], thrown := none } := by
    have h := pollLoop_firstHit envAllOk (pollStart envAllOk 0 + 90000)
      0 (pollStart envAllOk 0) [unitA] (by decide) rfl (by decide)
    simpa [pollPhase] using h
  have hv : missingRequiredFields itemErrorA = false := by decide
  have hi : envAllOk.initRes = Except.ok initResponseA := rfl
  have hs : envAllOk.s3Res = Except.ok () := rfl
  have hc : envAllOk.confirmRes = Except.ok confirmResponseA := rfl
  have hp : envAllOk.patchRes = Except.ok [unitA] := rfl
  have hfind : ([itemErrorA].find? (fun entry => entry.id == "a")) =
      some itemErrorA := rfl
  have hid : itemErrorA.id = "a" := rfl
  have herr : itemErrorA.error = some "Upload failed" := rfl
  simp [handleUploadItem, hfind, uploadFile, uploadFileRun, hv, hi, hs, hc, hp,
    hfirst, applyRun, updateUploadStatus, applyUpdates, updStartUploading,
    updProgress30, updProgress70, updProcessing, updComplete, hid, herr]

/-- Claim C9 as amended: the error field is written only by updates that
also set status error, and is never cleared — so a run that does not end
in error leaves the field exactly as it was; an item that never failed
carries no message, while a re-dispatched failed item keeps its stale
message even through uploading, processing and complete. -/
theorem C9_amended_error_never_cleared (env : Env) (item : UploadItem) (now : Nat) :
    (∀ u ∈ (uploadFileRun env item now).updates,
      u.error.isSome → u.status = some UploadStatus.error) ∧
    ((applyAll item (uploadFileRun env item now).updates).status ≠
        UploadStatus.error →
      (applyAll item (uploadFileRun env item now).updates).error = item.error) := by
  rcases uploadFileRun_updates_enum env item now with
    ⟨hv, h⟩ | ⟨hv, ⟨e, h⟩ | ⟨e, h⟩ | ⟨e, h⟩ | ⟨e, h⟩ | h⟩
  all_goals rw [h]
  all_goals constructor
  all_goals first
    | (intro u hu
       simp only [List.mem_cons, List.not_mem_nil, or_false,
         List.mem_singleton] at hu
       rcases hu with rfl | rfl | rfl | rfl | rfl <;>
         simp [updStartUploading, updProgress30, updProgress70, updProcessing,
           updError, updComplete])
    | (simp [applyAll, applyUpdates, updStartUploading, updProgress30,
        updProgress70, updProcessing, updError, updComplete])

/-- Witness for the amended C9: a fresh valid item that completes its run
in the all-success environment ends with no error message. -/
theorem C9_amended_error_never_cleared_witness :
    (applyAll itemPendingA (uploadFileRun envAllOk itemPendingA 0).updates).error =
      none := by
  have hfirst : pollPhase envAllOk 0 =
      { hasUnits := true, endTime := 0, queryTimes := [0], thrown := none } := by
    have h := pollLoop_firstHit envAllOk (pollStart envAllOk 0 + 90000)
      0 (pollStart envAllOk 0) [unitA] (by decide) rfl (by decide)
    simpa [pollPhase] using h
  have hv : missingRequiredFields itemPendingA = false := by decide
  have hi : envAllOk.initRes = Except.ok initResponseA := rfl
  have hs : envAllOk.s3Res = Except.ok () := rfl
  have hc : envAllOk.confirmRes = Except.ok confirmResponseA := rfl
  have hp : envAllOk.patchRes = Except.ok [unitA] := rfl
  have hstatus : (applyAll itemPendingA
      (uploadFileRun envAllOk itemPendingA 0).updates).status =
      UploadStatus.complete := by
    simp [uploadFileRun, hv, hi, hs, hc, hp, hfirst, applyAll, applyUpdates,
      updStartUploading, updProgress30, updProgress70, updProcessing, updComplete]
  have h := (C9_amended_error_never_cleared envAllOk itemPendingA 0).2
    (by rw [hstatus]; intro hcontra; exact absurd hcontra (by decide))
  simpa using h

/-- Claim C8 (confirmed): the remove control the queue UI offers only
exists for Complete and Error items, so remove on a pending, uploading or
processing item leaves the queue unchanged; on a terminal item it deletes
exactly the entries with that id and none other, preserving the rest. -/
theorem C8_remove_only_terminal (q : List UploadItem) (id : String)
    (item : UploadItem)
    (hfind : q.find? (fun entry => entry.id == id) = some item) :
    ((item.status = UploadStatus.pending ∨ item.status = UploadStatus.uploading ∨
        item.status = UploadStatus.processing) →
      uiRemove q id = q) ∧
    ((item.status = UploadStatus.complete ∨ item.status = UploadStatus.error) →
      uiRemove q id = q.filter (fun x => x.id != id) ∧
      (∀ x ∈ uiRemove q id, x.id ≠ id) ∧
      (∀ x ∈ q, x.id ≠ id → x ∈ uiRemove q id) ∧
      ∀ x ∈ uiRemove q id, x ∈ q) := by
  constructor
  · intro hst
    have hshown : removeControlShown item = false := by
      rcases hst with h | h | h <;> simp [removeControlShown, h]
    simp [uiRemove, hfind, hshown]
  · intro hst
    have hshown : removeControlShown item = true := by
      rcases hst with h | h <;> simp [removeControlShown, h]
    have heq : uiRemove q id = q.filter (fun x => x.id != id) := by
      simp [uiRemove, hfind, hshown, handleRemoveFromQueue]
    refine ⟨heq, ?_, ?_, ?_⟩
    · intro x hx
      rw [heq] at hx
      have := List.of_mem_filter hx
      simpa using this
    · intro x hx hne
      rw [heq]
      exact List.mem_filter.2 ⟨hx, by simpa using hne⟩
    · intro x hx
      rw [heq] at hx
      exact List.mem_of_mem_filter hx

/-- Witness for C8: removing the pending item does nothing; removing the
complete item empties the singleton queue. -/
theorem C8_remove_only_terminal_witness :
    uiRemove [itemPendingA] "a" = [itemPendingA] ∧
    uiRemove [itemCompleteA] "a" = [] := by
  have h1 := (C8_remove_only_terminal [itemPendingA] "a" itemPendingA
    (by decide)).1 (Or.inl rfl)
  have h2 := (C8_remove_only_terminal [itemCompleteA] "a" itemCompleteA
    (by decide)).2 (Or.inl rfl)
  refine ⟨h1, ?_⟩
  rw [h2.1]
  decide

/-- Claim C10 (confirmed): both file selection entry points forward at
most `maxFiles` files (default 10), exactly the first ones in input order;
an empty selection never invokes the callback; and the enqueue callback
turns each forwarded file into exactly one queue item. -/
theorem C10_maxFiles_cap (maxFiles : Nat) (files : List FileData) :
    (∀ fs, handleDrop false maxFiles files = some fs →
      fs = files.take maxFiles ∧ fs.length ≤ maxFiles) ∧
    (files = [] → handleDrop false maxFiles files = none) ∧
    (∀ fs, handleFileChange maxFiles files = some fs →
      fs = files.take maxFiles ∧ fs.length ≤ maxFiles) ∧
    (files = [] → handleFileChange maxFiles files = none) ∧
    (∀ dropped, handleDrop true maxFiles dropped = none) ∧
    (∀ freshId q fs,
      (handleFilesSelected freshId q fs).length = q.length + fs.length) ∧
    defaultMaxFiles = 10 := by
  refine ⟨?_, ?_, ?_, ?_, ?_, ?_, rfl⟩
  · intro fs h
    simp only [handleDrop, Bool.false_eq_true, if_false] at h
    split at h
    · cases h
      refine ⟨rfl, ?_⟩
      rw [List.length_take]
      omega
    · cases h
  · intro h
    subst h
    simp [handleDrop]
  · intro fs h
    simp only [handleFileChange] at h
    split at h
    · cases h
      refine ⟨rfl, ?_⟩
      rw [List.length_take]
      omega
    · cases h
  · intro h
    subst h
    simp [handleFileChange]
  · intro dropped
    simp [handleDrop]
  · intro freshId q fs
    simp [handleFilesSelected]

/-- Witness for C10 at a three-file selection with a cap of two. -/
theorem C10_maxFiles_cap_witness :
    ([fileA, fileB] = [fileA, fileB, fileC].take 2 ∧ [fileA, fileB].length ≤ 2) ∧
    handleDrop false 2 ([] : List FileData) = none ∧
    handleFileChange 2 ([] : List FileData) = none := by
  have h := C10_maxFiles_cap 2 [fileA, fileB, fileC]
  have h0 := C10_maxFiles_cap 2 ([] : List FileData)
  exact ⟨h.1 [fileA, fileB] (by decide), h0.2.1 rfl, h0.2.2.2.1 rfl⟩

end UncTube
